import Mathlib

/-!
Shallow embedding of `cmd/kubeadm/app/phases/certs/certs.go` (package `certs`):
the PKI provisioning entry point `CreatePKIAssets` and the SAN coverage check
`checkAltNamesExist`, together with models of the external collaborators the
file calls (hostname lookup, IP/CIDR parsing, the key-pair store and the
certificate generation library), which live outside this source tree and are
therefore modelled from the specification's interface descriptions.

Machine integers do not occur; IP addresses are byte lists (`List Nat`, each
entry a byte value), as in Go's `net.IP`.
-/

/-- An IP address as in Go's `net.IP`: a byte slice, 4 bytes for IPv4 or
16 bytes for an IPv6 / IPv4-in-IPv6 form. -/
abbrev IP := List Nat

/-- The 12-byte marker that introduces an IPv4 address embedded in a
16-byte IPv6 form (Go's `v4InV6Prefix`). -/
def v4InV6Pre : IP := [0, 0, 0, 0, 0, 0, 0, 0, 0, 0, 255, 255]

/-- Modelled from the spec: Go's `net.IP.Equal` — value equality of addresses,
so a 4-byte IPv4 address and the same address in 16-byte IPv4-in-IPv6 form
compare equal ("value equality, not string equality"). -/
def ipEqual (a b : IP) : Bool :=
  if a.length = b.length then a == b
  else if a.length = 4 ∧ b.length = 16 then
    b.take 12 == v4InV6Pre && a == b.drop 12
  else if a.length = 16 ∧ b.length = 4 then
    a.take 12 == v4InV6Pre && b == a.drop 12
  else false

/-- `certutil.AltNames`: the subject-alternative-name material of a server
certificate, a list of DNS names and a list of IP addresses. -/
structure AltNames where
  DNSNames : List String
  IPs : List IP
deriving DecidableEq

/-- `checkAltNamesExist` from `certs.go`: true iff every required DNS name is
present in `DNSNames` (exact string membership, the Go code builds a string
set) and every required IP has a value-equal member of `IPs`. -/
def checkAltNamesExist (IPs : List IP) (DNSNames : List String) (altNames : AltNames) : Bool :=
  (altNames.DNSNames.all fun dnsNameThatShouldExist => DNSNames.contains dnsNameThatShouldExist)
    &&
  (altNames.IPs.all fun ipThatShouldExist => IPs.any fun ip => ipEqual ip ipThatShouldExist)

structure APIConfig where
  AdvertiseAddresses : List String
  ExternalDNSNames : List String
deriving DecidableEq

structure NetworkingConfig where
  DNSDomain : String
  ServiceSubnet : String
deriving DecidableEq

structure MasterConfiguration where
  API : APIConfig
  Networking : NetworkingConfig
deriving DecidableEq

/-! ## Textual IP / CIDR parsing (models of `net.ParseIP`, `net.ParseCIDR`,
`ipallocator.GetIndexedIP`, none of which are in this source tree) -/

/-- Split a character list on a separator character. -/
def splitOnChar (c : Char) : List Char → List (List Char)
  | [] => [[]]
  | x :: xs =>
    let r := splitOnChar c xs
    if x = c then [] :: r
    else
      match r with
      | [] => [[x]]
      | g :: gs => (x :: g) :: gs

/-- Decimal value of a nonempty all-digit character list; `none` otherwise. -/
def parseDec (cs : List Char) : Option Nat :=
  if cs.isEmpty then none
  else
    cs.foldl
      (fun acc ch =>
        match acc with
        | some n => if ch.isDigit then some (n * 10 + (ch.toNat - 48)) else none
        | none => none)
      (some 0)

/-- Parse a dotted-quad IPv4 form `a.b.c.d` into its four byte values. -/
def parseIPv4Chars (cs : List Char) : Option (List Nat) :=
  match splitOnChar '.' cs with
  | [a, b, c, d] =>
    match parseDec a, parseDec b, parseDec c, parseDec d with
    | some x, some y, some z, some w =>
      if x ≤ 255 ∧ y ≤ 255 ∧ z ≤ 255 ∧ w ≤ 255 then some [x, y, z, w] else none
    | _, _, _, _ => none
  | _ => none

/-- Modelled from the spec: `net.ParseIP` on an advertised address string.
A dotted-quad IPv4 literal parses to the 16-byte IPv4-in-IPv6 form Go
returns; anything else (the model leaves IPv6 literal grammar out) is `none`. -/
def parseIP (s : String) : Option IP :=
  (parseIPv4Chars s.data).map fun q => v4InV6Pre ++ q

/-- An IPv4 network block: the masked base address as a number `< 2^32`,
plus the mask length. -/
structure IPNet where
  base : Nat
  maskLen : Nat
deriving DecidableEq

def quadToNat : List Nat → Nat
  | [a, b, c, d] => ((a * 256 + b) * 256 + c) * 256 + d
  | _ => 0

/-- Keep only the top `len` bits of a 32-bit address value. -/
def maskNat (n len : Nat) : Nat := n - n % 2 ^ (32 - len)

/-- Modelled from the spec: `net.ParseCIDR` on the service-subnet string —
dotted-quad base plus `/len`, `len ≤ 32`; the returned network carries the
masked base address, as Go's does. -/
def parseCIDR (s : String) : Option IPNet :=
  match splitOnChar '/' s.data with
  | [ipPart, maskPart] =>
    match parseIPv4Chars ipPart, parseDec maskPart with
    | some q, some len =>
      if len ≤ 32 then some { base := maskNat (quadToNat q) len, maskLen := len } else none
    | _, _ => none
  | _ => none

def natToIPv4 (x : Nat) : IP :=
  [x / 16777216 % 256, x / 65536 % 256, x / 256 % 256, x % 256]

/-- Modelled from the spec: `ipallocator.GetIndexedIP` — the address at the
given offset from the block's base, failing when it falls outside the block
(e.g. offset 1 in a /32). Returned in 4-byte form, as Go's is. -/
def GetIndexedIP (n : IPNet) (index : Nat) : Option IP :=
  let x := n.base + index
  if x < n.base + 2 ^ (32 - n.maskLen) then some (natToIPv4 x) else none

/-! ## Credentials and the on-disk store -/

/-- A parsed X.509 certificate, reduced to the fields this core reads or
fixes: common name, the CA bit, and the SAN material. -/
structure Cert where
  CommonName : String
  IsCA : Bool
  AltNames : AltNames
deriving DecidableEq

/-- A parsed private key, identified abstractly. -/
structure Key where
  keyId : Nat
deriving DecidableEq

/-- One stored certificate file: its bytes either parse to a certificate or
do not. -/
inductive CertFile
  | valid (c : Cert)
  | corrupt
deriving DecidableEq

/-- One stored key file: its bytes either parse to a key or do not. -/
inductive KeyFile
  | valid (k : Key)
  | corrupt
deriving DecidableEq

/-- The PKI directory: the four files `CreatePKIAssets` touches — the CA
pair (`ca.crt`/`ca.key`) and the API-server pair (`apiserver.crt`/
`apiserver.key`) — each possibly absent. -/
structure PKIStore where
  caCert : Option CertFile
  caKey : Option KeyFile
  apiCert : Option CertFile
  apiKey : Option KeyFile
deriving DecidableEq

/-- Modelled from the spec: `pkiutil.CertOrKeyExist` — the store probe is
true when at least one of the pair's two files exists. -/
def certOrKeyExist (cf : Option CertFile) (kf : Option KeyFile) : Bool :=
  cf.isSome || kf.isSome

/-- Modelled from the spec: `pkiutil.TryLoadCertAndKeyFromDisk` — loading a
pair succeeds iff both files exist and both parse. -/
def tryLoadCertAndKey (cf : Option CertFile) (kf : Option KeyFile) : Option (Cert × Key) :=
  match cf, kf with
  | some (CertFile.valid c), some (KeyFile.valid k) => some (c, k)
  | _, _ => none

/-! ## Errors, outcomes, environment -/

/-- The error exits of `CreatePKIAssets`, one constructor per `return
fmt.Errorf(...)` site in the source, in source order. -/
inductive CertsError
  | couldNotGetHostname
  | couldNotParseIP (a : String)
  | errorParsingCIDR (s : String)
  | unableToAllocateIP (s : String)
  | caLoadFailed
  | notACertificateAuthority
  | caGenerationFailed
  | caSaveFailed
  | apiLoadFailed
  | apiGenerationFailed
  | apiSaveFailed
deriving DecidableEq

/-- The operator-visible message of each error exit, as formatted by the
source's `fmt.Errorf` calls (wrapped underlying causes elided). -/
def errMessage : CertsError → String
  | CertsError.couldNotGetHostname => "couldn't get the hostname"
  | CertsError.couldNotParseIP a => "could not parse ip \"" ++ a ++ "\""
  | CertsError.errorParsingCIDR s => "error parsing CIDR \"" ++ s ++ "\""
  | CertsError.unableToAllocateIP s =>
      "unable to allocate IP address for the API server from the given CIDR (\"" ++ s ++ "\")"
  | CertsError.caLoadFailed =>
      "certificate and/or key existed but they could not be loaded properly"
  | CertsError.notACertificateAuthority =>
      "certificate and key could be loaded but the certificate is not a CA"
  | CertsError.caGenerationFailed => "failure while generating CA certificate and key"
  | CertsError.caSaveFailed => "failure while saving CA certificate and key"
  | CertsError.apiLoadFailed =>
      "certificate and/or key existed but they could not be loaded properly"
  | CertsError.apiGenerationFailed => "failure while creating API server key and certificate"
  | CertsError.apiSaveFailed => "failure while saving API server certificate and key"

/-- The per-pair provisioning outcome the source prints ("Using the
existing ..." vs "Generated ..."). -/
inductive Outcome
  | Reused
  | Generated
deriving DecidableEq

/-- The two credential roles the run provisions, used to record which pairs
were written. -/
inductive Role
  | CA
  | APIServer
deriving DecidableEq

/-- The ambient process environment: the hostname lookup and the outcomes of
the nondeterministic external operations (key generation, disk writes), fixed
per invocation. `none` / `false` model the corresponding failure. -/
structure Env where
  hostname : Option String
  genCAKey : Option Key
  genServerKey : Option Key
  saveCAOk : Bool
  saveAPIOk : Bool
deriving DecidableEq

/-- Modelled from the spec: `pkiutil.NewCertificateAuthority` produces a
self-signed CA certificate — common name `kubernetes`, CA bit set, no SANs. -/
def newCACert : Cert :=
  { CommonName := "kubernetes", IsCA := true, AltNames := { DNSNames := [], IPs := [] } }

/-- Modelled from the spec: `pkiutil.NewCertAndKey` with the source's
`certutil.Config` — a leaf certificate with common name `kube-apiserver`,
CA bit clear, carrying exactly the assembled SAN set. The signing
relationship to the CA pair is outside the model. -/
def newAPICert (altNames : AltNames) : Cert :=
  { CommonName := "kube-apiserver", IsCA := false, AltNames := altNames }

/-! ## The SAN assembly and the two provisioning phases of `CreatePKIAssets` -/

/-- The fixed internal API-server aliases, suffixed by the cluster DNS domain
(`internalAPIServerFQDN` in the source). -/
def internalAPIServerFQDN (dnsDomain : String) : List String :=
  ["kubernetes", "kubernetes.default", "kubernetes.default.svc",
   "kubernetes.default.svc." ++ dnsDomain]

/-- The advertise-address loop of the source: parse each address in order,
stopping at the first failure (which names the offending string). -/
def parseAdvertiseAddresses : List String → Except String (List IP)
  | [] => Except.ok []
  | a :: rest =>
    match parseIP a with
    | none => Except.error a
    | some ip =>
      match parseAdvertiseAddresses rest with
      | Except.error b => Except.error b
      | Except.ok ips => Except.ok (ip :: ips)

/-- The SAN-assembly head of `CreatePKIAssets`, in source order: hostname,
DNS names (external ++ hostname ++ internal aliases), advertised addresses,
service CIDR, then the index-1 virtual IP appended last. -/
def assembleAltNames (cfg : MasterConfiguration) (env : Env) : Except CertsError AltNames :=
  match env.hostname with
  | none => Except.error CertsError.couldNotGetHostname
  | some hostname =>
    let dnsNames := cfg.API.ExternalDNSNames ++ [hostname]
      ++ internalAPIServerFQDN cfg.Networking.DNSDomain
    match parseAdvertiseAddresses cfg.API.AdvertiseAddresses with
    | Except.error a => Except.error (CertsError.couldNotParseIP a)
    | Except.ok ips =>
      match parseCIDR cfg.Networking.ServiceSubnet with
      | none => Except.error (CertsError.errorParsingCIDR cfg.Networking.ServiceSubnet)
      | some n =>
        match GetIndexedIP n 1 with
        | none => Except.error (CertsError.unableToAllocateIP cfg.Networking.ServiceSubnet)
        | some internalAPIServerVirtualIP =>
          Except.ok { DNSNames := dnsNames, IPs := ips ++ [internalAPIServerVirtualIP] }

/-- The CA block of `CreatePKIAssets`: probe, then load (requiring the CA
bit) or generate-and-save. On success: the resolved pair, the store after
the block, the reported outcome, and the writes performed. -/
def provisionCA (env : Env) (s : PKIStore) :
    Except CertsError (Cert × Key × PKIStore × Outcome × List Role) :=
  if certOrKeyExist s.caCert s.caKey then
    match tryLoadCertAndKey s.caCert s.caKey with
    | none => Except.error CertsError.caLoadFailed
    | some (caCert, caKey) =>
      if !caCert.IsCA then Except.error CertsError.notACertificateAuthority
      else Except.ok (caCert, caKey, s, Outcome.Reused, [])
  else
    match env.genCAKey with
    | none => Except.error CertsError.caGenerationFailed
    | some caKey =>
      if env.saveCAOk then
        Except.ok (newCACert, caKey,
          { s with caCert := some (CertFile.valid newCACert),
                   caKey := some (KeyFile.valid caKey) },
          Outcome.Generated, [Role.CA])
      else Except.error CertsError.caSaveFailed

/-- The API-server block of `CreatePKIAssets`: probe, then load (accepted
as-is) or generate-and-save a leaf bound to the assembled SAN set. -/
def provisionAPI (env : Env) (altNames : AltNames) (_caCert : Cert) (_caKey : Key)
    (s : PKIStore) : Except CertsError (PKIStore × Outcome × List Role) :=
  if certOrKeyExist s.apiCert s.apiKey then
    match tryLoadCertAndKey s.apiCert s.apiKey with
    | none => Except.error CertsError.apiLoadFailed
    | some _ => Except.ok (s, Outcome.Reused, [])
  else
    match env.genServerKey with
    | none => Except.error CertsError.apiGenerationFailed
    | some apiKey =>
      if env.saveAPIOk then
        Except.ok
          ({ s with apiCert := some (CertFile.valid (newAPICert altNames)),
                    apiKey := some (KeyFile.valid apiKey) },
          Outcome.Generated, [Role.APIServer])
      else Except.error CertsError.apiSaveFailed

/-- The observable result of one `CreatePKIAssets` invocation: the returned
error (if any), the store left behind, the reported outcome of each phase
(`none` when the run aborted before reporting it), and the pairs written. -/
structure RunResult where
  error : Option CertsError
  store : PKIStore
  caOutcome : Option Outcome
  apiOutcome : Option Outcome
  saves : List Role
deriving DecidableEq

/-- `CreatePKIAssets` from `certs.go`: SAN assembly, then the CA phase, then
the API-server phase; any error aborts the run, leaving the store as the
failing phase left it. -/
def CreatePKIAssets (cfg : MasterConfiguration) (env : Env) (s : PKIStore) : RunResult :=
  match assembleAltNames cfg env with
  | Except.error e =>
    { error := some e, store := s, caOutcome := none, apiOutcome := none, saves := [] }
  | Except.ok altNames =>
    match provisionCA env s with
    | Except.error e =>
      { error := some e, store := s, caOutcome := none, apiOutcome := none, saves := [] }
    | Except.ok (caCert, caKey, s1, caOut, caSaves) =>
      match provisionAPI env altNames caCert caKey s1 with
      | Except.error e =>
        { error := some e, store := s1, caOutcome := some caOut, apiOutcome := none,
          saves := caSaves }
      | Except.ok (s2, apiOut, apiSaves) =>
        { error := none, store := s2, caOutcome := some caOut, apiOutcome := some apiOut,
          saves := caSaves ++ apiSaves }

/-! ## Helper lemmas about the provisioning phases -/

/-- Frame relation on stores: every file present in `s` is still present,
with the same content, in `t`. -/
def storeKeeps (s t : PKIStore) : Prop :=
  (∀ f, s.caCert = some f → t.caCert = some f) ∧
  (∀ f, s.caKey = some f → t.caKey = some f) ∧
  (∀ f, s.apiCert = some f → t.apiCert = some f) ∧
  (∀ f, s.apiKey = some f → t.apiKey = some f)

/-- Environments and configurations exercising each assembly failure. -/
def cfgOkSubnet : MasterConfiguration :=
  { API := { AdvertiseAddresses := [], ExternalDNSNames := [] },
    Networking := { DNSDomain := "d", ServiceSubnet := "10.96.0.0/12" } }

def cfgBadIP : MasterConfiguration :=
  { API := { AdvertiseAddresses := ["nope"], ExternalDNSNames := [] },
    Networking := { DNSDomain := "d", ServiceSubnet := "10.96.0.0/12" } }

def cfgBadCIDR : MasterConfiguration :=
  { API := { AdvertiseAddresses := [], ExternalDNSNames := [] },
    Networking := { DNSDomain := "d", ServiceSubnet := "not-a-cidr" } }

def cfgSlash32 : MasterConfiguration :=
  { API := { AdvertiseAddresses := [], ExternalDNSNames := [] },
    Networking := { DNSDomain := "d", ServiceSubnet := "10.0.0.5/32" } }

def envNoHost : Env :=
  { hostname := none, genCAKey := none, genServerKey := none,
    saveCAOk := true, saveAPIOk := true }

def envHostN : Env :=
  { hostname := some "n", genCAKey := none, genServerKey := none,
    saveCAOk := true, saveAPIOk := true }

def emptyStore : PKIStore :=
  { caCert := none, caKey := none, apiCert := none, apiKey := none }

/-- A configuration whose external DNS name duplicates the fixed internal
alias `kubernetes`. -/
def cfgDup : MasterConfiguration :=
  { API := { AdvertiseAddresses := [], ExternalDNSNames := ["kubernetes"] },
    Networking := { DNSDomain := "cluster.local", ServiceSubnet := "10.96.0.0/12" } }

def envDup : Env :=
  { hostname := some "node9", genCAKey := some { keyId := 1 },
    genServerKey := some { keyId := 2 }, saveCAOk := true, saveAPIOk := true }

/-- The DNS names of the server certificate a store holds, if any. -/
def storedApiDNSNames (s : PKIStore) : List String :=
  match s.apiCert with
  | some (CertFile.valid c) => c.AltNames.DNSNames
  | _ => []

/-- A non-CA certificate and a stored valid CA/server pair for concrete runs. -/
def apiCW : Cert :=
  { CommonName := "kube-apiserver", IsCA := false,
    AltNames := { DNSNames := [], IPs := [] } }

def storeValid : PKIStore :=
  { caCert := some (CertFile.valid newCACert), caKey := some (KeyFile.valid { keyId := 1 }),
    apiCert := some (CertFile.valid apiCW), apiKey := some (KeyFile.valid { keyId := 2 }) }

/-- The SAN set `cfgOkSubnet` assembles under hostname `node9`. -/
def altW9 : AltNames :=
  { DNSNames := ["node9", "kubernetes", "kubernetes.default", "kubernetes.default.svc",
      "kubernetes.default.svc.d"],
    IPs := [[10, 96, 0, 1]] }

/-- A store whose CA "certificate" parses but is not a CA. -/
def storeBadCA : PKIStore :=
  { caCert := some (CertFile.valid
      { CommonName := "x", IsCA := false, AltNames := { DNSNames := [], IPs := [] } }),
    caKey := some (KeyFile.valid { keyId := 3 }), apiCert := none, apiKey := none }

/-- Exactly one of the CA pair's two files exists. -/
def exactlyOneCAFile (s : PKIStore) : Prop :=
  (s.caCert.isSome = true ∧ s.caKey = none) ∨ (s.caCert = none ∧ s.caKey.isSome = true)

/-- Exactly one of the API-server pair's two files exists. -/
def exactlyOneAPIFile (s : PKIStore) : Prop :=
  (s.apiCert.isSome = true ∧ s.apiKey = none) ∨ (s.apiCert = none ∧ s.apiKey.isSome = true)

/-- A store holding only the CA key file, and one holding a corrupt CA
certificate beside a valid CA key. -/
def store4KeyOnly : PKIStore :=
  { caCert := none, caKey := some (KeyFile.valid { keyId := 7 }),
    apiCert := none, apiKey := none }

def store4Corrupt : PKIStore :=
  { caCert := some CertFile.corrupt, caKey := some (KeyFile.valid { keyId := 7 }),
    apiCert := none, apiKey := none }

/-- The SAN set `cfgOkSubnet` assembles under hostname `n`, and a store with
a valid CA pair but only the server key file. -/
def altWn : AltNames :=
  { DNSNames := ["n", "kubernetes", "kubernetes.default", "kubernetes.default.svc",
      "kubernetes.default.svc.d"],
    IPs := [[10, 96, 0, 1]] }

def storeApiKeyOnly : PKIStore :=
  { caCert := some (CertFile.valid newCACert), caKey := some (KeyFile.valid { keyId := 1 }),
    apiCert := none, apiKey := some (KeyFile.valid { keyId := 2 }) }

theorem ipEqual_refl (a : IP) : ipEqual a a = true := by
  simp [ipEqual]

/-- Characterisation of `checkAltNamesExist` as the spec's coverage predicate. -/
theorem checkAltNamesExist_iff (IPs : List IP) (DNSNames : List String) (req : AltNames) :
    checkAltNamesExist IPs DNSNames req = true ↔
      ((∀ d ∈ req.DNSNames, d ∈ DNSNames) ∧
       (∀ ip ∈ req.IPs, ∃ a ∈ IPs, ipEqual a ip = true)) := by
  simp [checkAltNamesExist, List.all_eq_true, List.any_eq_true, List.elem_iff]

/-! ## Cluster configuration (`kubeadmapi.MasterConfiguration`, the fields read) -/

theorem tryLoadCertAndKey_eq_some {cf : Option CertFile} {kf : Option KeyFile}
    {c : Cert} {k : Key} (h : tryLoadCertAndKey cf kf = some (c, k)) :
    cf = some (CertFile.valid c) ∧ kf = some (KeyFile.valid k) := by
  cases cf with
  | none => simp [tryLoadCertAndKey] at h
  | some f =>
    cases f with
    | corrupt =>
      cases kf with
      | none => simp [tryLoadCertAndKey] at h
      | some g => cases g <;> simp [tryLoadCertAndKey] at h
    | valid c' =>
      cases kf with
      | none => simp [tryLoadCertAndKey] at h
      | some g =>
        cases g with
        | corrupt => simp [tryLoadCertAndKey] at h
        | valid k' =>
          simp [tryLoadCertAndKey] at h
          simp [h.1, h.2]

theorem provisionCA_reuse (env : Env) (s : PKIStore) (c : Cert) (k : Key)
    (hc : s.caCert = some (CertFile.valid c)) (hk : s.caKey = some (KeyFile.valid k))
    (hca : c.IsCA = true) :
    provisionCA env s = Except.ok (c, k, s, Outcome.Reused, []) := by
  simp [provisionCA, certOrKeyExist, tryLoadCertAndKey, hc, hk, hca]

theorem provisionAPI_reuse (env : Env) (altNames : AltNames) (cc : Cert) (ck : Key)
    (s : PKIStore) (c2 : Cert) (k2 : Key)
    (hc : s.apiCert = some (CertFile.valid c2)) (hk : s.apiKey = some (KeyFile.valid k2)) :
    provisionAPI env altNames cc ck s = Except.ok (s, Outcome.Reused, []) := by
  simp [provisionAPI, certOrKeyExist, tryLoadCertAndKey, hc, hk]

/-- Full-reuse run: with a loadable CA pair whose certificate has the CA bit
and a loadable API pair, the run succeeds, writes nothing, and reports both
phases `Reused`. -/
theorem CreatePKIAssets_reuse (cfg : MasterConfiguration) (env : Env) (s : PKIStore)
    (alt : AltNames) (c c2 : Cert) (k k2 : Key)
    (hA : assembleAltNames cfg env = Except.ok alt)
    (hc : s.caCert = some (CertFile.valid c)) (hk : s.caKey = some (KeyFile.valid k))
    (hca : c.IsCA = true)
    (h2c : s.apiCert = some (CertFile.valid c2)) (h2k : s.apiKey = some (KeyFile.valid k2)) :
    CreatePKIAssets cfg env s =
      { error := none, store := s, caOutcome := some Outcome.Reused,
        apiOutcome := some Outcome.Reused, saves := [] } := by
  simp [CreatePKIAssets, hA, provisionCA_reuse env s c k hc hk hca,
    provisionAPI_reuse env alt c k s c2 k2 h2c h2k]

/-- Whatever a successful CA phase returns: the store now holds the resolved
pair as valid files, the certificate has the CA bit, the API slots are
untouched, and any pre-existing CA file was left in place. -/
theorem provisionCA_ok {env : Env} {s s1 : PKIStore} {c : Cert} {k : Key}
    {o : Outcome} {sv : List Role}
    (h : provisionCA env s = Except.ok (c, k, s1, o, sv)) :
    s1.caCert = some (CertFile.valid c) ∧ s1.caKey = some (KeyFile.valid k) ∧
    c.IsCA = true ∧ s1.apiCert = s.apiCert ∧ s1.apiKey = s.apiKey ∧
    (∀ f, s.caCert = some f → s1.caCert = some f) ∧
    (∀ f, s.caKey = some f → s1.caKey = some f) := by
  unfold provisionCA at h
  split at h
  · split at h
    · simp at h
    · split at h
      · simp at h
      · rename_i hca
        rename_i htl
        cases h
        obtain ⟨hcf, hkf⟩ := tryLoadCertAndKey_eq_some htl
        have hca' : c.IsCA = true := by simpa using hca
        exact ⟨hcf, hkf, hca', rfl, rfl, fun f hf => hf, fun f hf => hf⟩
  · rename_i hex
    have hcn : s.caCert = none := by
      cases hcc : s.caCert with
      | none => rfl
      | some f => exact absurd (by simp [certOrKeyExist, hcc]) hex
    have hkn : s.caKey = none := by
      cases hck : s.caKey with
      | none => rfl
      | some f => exact absurd (by simp [certOrKeyExist, hck]) hex
    split at h
    · simp at h
    · split at h
      · cases h
        refine ⟨rfl, rfl, rfl, rfl, rfl, ?_, ?_⟩
        · intro f hf; rw [hcn] at hf; exact absurd hf (by simp)
        · intro f hf; rw [hkn] at hf; exact absurd hf (by simp)
      · simp at h

/-- Whatever a successful API phase returns: the store now holds a loadable
API pair, the CA slots are untouched, and any pre-existing API file was left
in place. -/
theorem provisionAPI_ok {env : Env} {altNames : AltNames} {cc : Cert} {ck : Key}
    {s s2 : PKIStore} {o : Outcome} {sv : List Role}
    (h : provisionAPI env altNames cc ck s = Except.ok (s2, o, sv)) :
    (∃ c2 k2, s2.apiCert = some (CertFile.valid c2) ∧ s2.apiKey = some (KeyFile.valid k2)) ∧
    s2.caCert = s.caCert ∧ s2.caKey = s.caKey ∧
    (∀ f, s.apiCert = some f → s2.apiCert = some f) ∧
    (∀ f, s.apiKey = some f → s2.apiKey = some f) := by
  unfold provisionAPI at h
  split at h
  · split at h
    · simp at h
    · rename_i p htl
      cases h
      obtain ⟨c2, k2⟩ := p
      obtain ⟨hcf, hkf⟩ := tryLoadCertAndKey_eq_some htl
      exact ⟨⟨c2, k2, hcf, hkf⟩, rfl, rfl, fun f hf => hf, fun f hf => hf⟩
  · rename_i hex
    have hcn : s.apiCert = none := by
      cases hcc : s.apiCert with
      | none => rfl
      | some f => exact absurd (by simp [certOrKeyExist, hcc]) hex
    have hkn : s.apiKey = none := by
      cases hck : s.apiKey with
      | none => rfl
      | some f => exact absurd (by simp [certOrKeyExist, hck]) hex
    split at h
    · simp at h
    · split at h
      · cases h
        refine ⟨⟨newAPICert altNames, _, rfl, rfl⟩, rfl, rfl, ?_, ?_⟩
        · intro f hf; rw [hcn] at hf; exact absurd hf (by simp)
        · intro f hf; rw [hkn] at hf; exact absurd hf (by simp)
      · simp at h

/-- Inversion of a successful run into its three phases. -/
theorem CreatePKIAssets_ok {cfg : MasterConfiguration} {env : Env} {s : PKIStore}
    (h : (CreatePKIAssets cfg env s).error = none) :
    ∃ alt c k s1 o sv s2 o2 sv2,
      assembleAltNames cfg env = Except.ok alt ∧
      provisionCA env s = Except.ok (c, k, s1, o, sv) ∧
      provisionAPI env alt c k s1 = Except.ok (s2, o2, sv2) ∧
      (CreatePKIAssets cfg env s).store = s2 := by
  cases hA : assembleAltNames cfg env with
  | error e => simp [CreatePKIAssets, hA] at h
  | ok alt =>
    cases hCA : provisionCA env s with
    | error e => simp [CreatePKIAssets, hA, hCA] at h
    | ok r =>
      obtain ⟨c, k, s1, o, sv⟩ := r
      cases hAPI : provisionAPI env alt c k s1 with
      | error e => simp [CreatePKIAssets, hA, hCA, hAPI] at h
      | ok r2 =>
        obtain ⟨s2, o2, sv2⟩ := r2
        exact ⟨alt, c, k, s1, o, sv, s2, o2, sv2, rfl, rfl, hAPI,
          by simp [CreatePKIAssets, hA, hCA, hAPI]⟩

theorem storeKeeps_refl (s : PKIStore) : storeKeeps s s :=
  ⟨fun _ hf => hf, fun _ hf => hf, fun _ hf => hf, fun _ hf => hf⟩

/-- No run of `CreatePKIAssets` — failing or not — deletes or overwrites a
file that was present at the start. -/
theorem CreatePKIAssets_keeps (cfg : MasterConfiguration) (env : Env) (s : PKIStore) :
    storeKeeps s (CreatePKIAssets cfg env s).store := by
  cases hA : assembleAltNames cfg env with
  | error e => simp only [CreatePKIAssets, hA]; exact storeKeeps_refl s
  | ok alt =>
    cases hCA : provisionCA env s with
    | error e => simp only [CreatePKIAssets, hA, hCA]; exact storeKeeps_refl s
    | ok r =>
      obtain ⟨c, k, s1, o, sv⟩ := r
      obtain ⟨_, _, _, hapi1, hapi2, hkc, hkk⟩ := provisionCA_ok hCA
      cases hAPI : provisionAPI env alt c k s1 with
      | error e =>
        simp only [CreatePKIAssets, hA, hCA, hAPI]
        exact ⟨hkc, hkk, fun f hf => hapi1.trans hf, fun f hf => hapi2.trans hf⟩
      | ok r2 =>
        obtain ⟨s2, o2, sv2⟩ := r2
        obtain ⟨_, hca1, hca2, hk1, hk2⟩ := provisionAPI_ok hAPI
        simp only [CreatePKIAssets, hA, hCA, hAPI]
        exact ⟨fun f hf => hca1.trans (hkc f hf), fun f hf => hca2.trans (hkk f hf),
          fun f hf => hk1 f (hapi1.trans hf), fun f hf => hk2 f (hapi2.trans hf)⟩

/-- The advertise-address loop returns one parsed IP per input string. -/
theorem parseAdvertiseAddresses_length :
    ∀ (l : List String) (ips : List IP),
      parseAdvertiseAddresses l = Except.ok ips → ips.length = l.length := by
  intro l
  induction l with
  | nil =>
    intro ips h
    simp only [parseAdvertiseAddresses] at h
    injection h with h
    simp [← h]
  | cons a rest ih =>
    intro ips h
    cases hp : parseIP a with
    | none =>
      simp only [parseAdvertiseAddresses, hp] at h
      exact Except.noConfusion h
    | some ip =>
      cases hr : parseAdvertiseAddresses rest with
      | error b =>
        simp only [parseAdvertiseAddresses, hp, hr] at h
        exact Except.noConfusion h
      | ok ips' =>
        simp only [parseAdvertiseAddresses, hp, hr] at h
        injection h with h
        rw [← h]
        simp [ih ips' hr]

/-! ## Claim theorems -/

/-- C6: Coverage Verifier correctness. `checkAltNamesExist` returns true iff
every required DNS name occurs in the actual DNS names by exact string match
and every required IP has a value-equal (`ipEqual`) member of the actual IPs;
it is reflexive (`Verify(A, A)` holds for every SAN set `A`); it is false
whenever a required DNS name or IP is absent; and reordering any of the
lists never changes the result. -/
theorem checkAltNamesExist_correct :
    (∀ (IPs : List IP) (DNSNames : List String) (req : AltNames),
      checkAltNamesExist IPs DNSNames req = true ↔
        ((∀ d ∈ req.DNSNames, d ∈ DNSNames) ∧
         (∀ ip ∈ req.IPs, ∃ a ∈ IPs, ipEqual a ip = true)))
    ∧ (∀ A : AltNames, checkAltNamesExist A.IPs A.DNSNames A = true)
    ∧ (∀ (IPs : List IP) (DNSNames : List String) (req : AltNames),
        ((∃ d ∈ req.DNSNames, d ∉ DNSNames) ∨
         (∃ ip ∈ req.IPs, ∀ a ∈ IPs, ipEqual a ip = false)) →
        checkAltNamesExist IPs DNSNames req = false)
    ∧ (∀ (IPs IPs2 : List IP) (DNS DNS2 : List String)
        (rIPs rIPs2 : List IP) (rDNS rDNS2 : List String),
        IPs.Perm IPs2 → DNS.Perm DNS2 → rIPs.Perm rIPs2 → rDNS.Perm rDNS2 →
        checkAltNamesExist IPs DNS { DNSNames := rDNS, IPs := rIPs } =
          checkAltNamesExist IPs2 DNS2 { DNSNames := rDNS2, IPs := rIPs2 }) := by
  refine ⟨checkAltNamesExist_iff, ?_, ?_, ?_⟩
  · intro A
    exact (checkAltNamesExist_iff A.IPs A.DNSNames A).mpr
      ⟨fun d hd => hd, fun ip hip => ⟨ip, hip, ipEqual_refl ip⟩⟩
  · intro IPs DNSNames req h
    cases hb : checkAltNamesExist IPs DNSNames req with
    | false => rfl
    | true =>
      exfalso
      obtain ⟨hd, hi⟩ := (checkAltNamesExist_iff IPs DNSNames req).mp hb
      rcases h with ⟨d, hdm, hdn⟩ | ⟨ip, hipm, hnone⟩
      · exact hdn (hd d hdm)
      · obtain ⟨a, ha, he⟩ := hi ip hipm
        rw [hnone a ha] at he
        exact Bool.false_ne_true he
  · intro IPs IPs2 DNS DNS2 rIPs rIPs2 rDNS rDNS2 h1 h2 h3 h4
    have e1 := checkAltNamesExist_iff IPs DNS { DNSNames := rDNS, IPs := rIPs }
    have e2 := checkAltNamesExist_iff IPs2 DNS2 { DNSNames := rDNS2, IPs := rIPs2 }
    have hP : ((∀ d ∈ rDNS, d ∈ DNS) ∧ (∀ ip ∈ rIPs, ∃ a ∈ IPs, ipEqual a ip = true)) ↔
        ((∀ d ∈ rDNS2, d ∈ DNS2) ∧ (∀ ip ∈ rIPs2, ∃ a ∈ IPs2, ipEqual a ip = true)) := by
      constructor
      · rintro ⟨hd, hi⟩
        refine ⟨fun d hdm => h2.mem_iff.1 (hd d (h4.mem_iff.2 hdm)), fun ip hip => ?_⟩
        obtain ⟨a, ha, he⟩ := hi ip (h3.mem_iff.2 hip)
        exact ⟨a, h1.mem_iff.1 ha, he⟩
      · rintro ⟨hd, hi⟩
        refine ⟨fun d hdm => h2.mem_iff.2 (hd d (h4.mem_iff.1 hdm)), fun ip hip => ?_⟩
        obtain ⟨a, ha, he⟩ := hi ip (h3.mem_iff.1 hip)
        exact ⟨a, h1.mem_iff.2 ha, he⟩
    by_cases hb : checkAltNamesExist IPs DNS { DNSNames := rDNS, IPs := rIPs } = true
    · rw [hb, e2.mpr (hP.1 (e1.mp hb))]
    · have hb2 : ¬checkAltNamesExist IPs2 DNS2 { DNSNames := rDNS2, IPs := rIPs2 } = true :=
        fun hc => hb (e1.mpr (hP.2 (e2.mp hc)))
      rw [Bool.not_eq_true] at hb hb2
      rw [hb, hb2]

/-- Concrete exercise of C6: reflexivity at a one-element SAN set, order
insensitivity at a permuted pair of argument lists (where the required IP is
even in a different byte representation), and falseness at a missing name. -/
theorem checkAltNamesExist_correct_witness :
    checkAltNamesExist [[10, 0, 0, 5]] ["a"] { DNSNames := ["a"], IPs := [[10, 0, 0, 5]] } = true
    ∧ checkAltNamesExist [[1, 2, 3, 4], [5, 6, 7, 8]] ["x", "y"]
        { DNSNames := ["y", "x"], IPs := [[5, 6, 7, 8]] } =
      checkAltNamesExist [[5, 6, 7, 8], [1, 2, 3, 4]] ["y", "x"]
        { DNSNames := ["x", "y"], IPs := [[5, 6, 7, 8]] }
    ∧ checkAltNamesExist [] [] { DNSNames := ["z"], IPs := [] } = false := by
  refine ⟨?_, ?_, ?_⟩
  · exact checkAltNamesExist_correct.2.1 { DNSNames := ["a"], IPs := [[10, 0, 0, 5]] }
  · exact checkAltNamesExist_correct.2.2.2 _ _ _ _ _ _ _ _
      (by decide) (by decide) (by decide) (by decide)
  · exact checkAltNamesExist_correct.2.2.1 _ _ _ (Or.inl ⟨"z", by decide, by decide⟩)

/-- C10: with an empty required SAN set, `checkAltNamesExist` is vacuously
true for every pair of actual sets, in particular when both are empty. -/
theorem checkAltNamesExist_vacuous :
    (∀ (IPs : List IP) (DNSNames : List String),
      checkAltNamesExist IPs DNSNames { DNSNames := [], IPs := [] } = true)
    ∧ checkAltNamesExist [] [] { DNSNames := [], IPs := [] } = true := by
  exact ⟨fun IPs DNSNames => rfl, rfl⟩

/-- Successful SAN assembly, reduced to its output lists. -/
theorem assembleAltNames_eq (cfg : MasterConfiguration) (env : Env) (h : String)
    (ips : List IP) (net : IPNet) (vip : IP)
    (hh : env.hostname = some h)
    (hadv : parseAdvertiseAddresses cfg.API.AdvertiseAddresses = Except.ok ips)
    (hcidr : parseCIDR cfg.Networking.ServiceSubnet = some net)
    (hvip : GetIndexedIP net 1 = some vip) :
    assembleAltNames cfg env = Except.ok
      { DNSNames := cfg.API.ExternalDNSNames ++ [h]
          ++ internalAPIServerFQDN cfg.Networking.DNSDomain,
        IPs := ips ++ [vip] } := by
  simp [assembleAltNames, hh, hadv, hcidr, hvip]

/-- C5: SAN completeness and virtual-IP derivation. With a resolvable
hostname, `M` advertised addresses that all parse, and a service CIDR with a
usable index-1 address, the assembled SAN set has `N + 5 ≥ N + 4` DNS names
(the `N` external names, the hostname, the four internal aliases — all
members) and exactly `M + 1` IP addresses, the extra one being the CIDR's
index-1 address appended last. -/
theorem assembleAltNames_san_completeness :
    ∀ (cfg : MasterConfiguration) (env : Env) (h : String)
      (ips : List IP) (net : IPNet) (vip : IP),
      env.hostname = some h →
      parseAdvertiseAddresses cfg.API.AdvertiseAddresses = Except.ok ips →
      parseCIDR cfg.Networking.ServiceSubnet = some net →
      GetIndexedIP net 1 = some vip →
      ∃ alt, assembleAltNames cfg env = Except.ok alt ∧
        cfg.API.ExternalDNSNames.length + 4 ≤ alt.DNSNames.length ∧
        alt.DNSNames.length = cfg.API.ExternalDNSNames.length + 5 ∧
        alt.IPs.length = cfg.API.AdvertiseAddresses.length + 1 ∧
        alt.IPs = ips ++ [vip] ∧
        (∀ d ∈ cfg.API.ExternalDNSNames, d ∈ alt.DNSNames) ∧
        h ∈ alt.DNSNames ∧
        "kubernetes" ∈ alt.DNSNames ∧
        "kubernetes.default" ∈ alt.DNSNames ∧
        "kubernetes.default.svc" ∈ alt.DNSNames ∧
        ("kubernetes.default.svc." ++ cfg.Networking.DNSDomain) ∈ alt.DNSNames := by
  intro cfg env h ips net vip hh hadv hcidr hvip
  refine ⟨_, assembleAltNames_eq cfg env h ips net vip hh hadv hcidr hvip,
    ?_, ?_, ?_, rfl, ?_, ?_, ?_, ?_, ?_, ?_⟩
  · simp [internalAPIServerFQDN]
  · simp [internalAPIServerFQDN]
  · simp [parseAdvertiseAddresses_length cfg.API.AdvertiseAddresses ips hadv]
  · intro d hd
    simp [hd]
  · simp
  · simp [internalAPIServerFQDN]
  · simp [internalAPIServerFQDN]
  · simp [internalAPIServerFQDN]
  · simp [internalAPIServerFQDN]

/-- Concrete exercise of C5, at the spec's own example: CIDR `10.96.0.0/12`
yields the virtual IP `10.96.0.1`. -/
theorem assembleAltNames_san_completeness_witness :
    (parseCIDR "10.96.0.0/12" = some { base := 174063616, maskLen := 12 } ∧
     GetIndexedIP { base := 174063616, maskLen := 12 } 1 = some [10, 96, 0, 1])
    ∧ ∃ alt,
      assembleAltNames
        { API := { AdvertiseAddresses := ["10.0.0.5"], ExternalDNSNames := ["example.com"] },
          Networking := { DNSDomain := "cluster.local", ServiceSubnet := "10.96.0.0/12" } }
        { hostname := some "node1", genCAKey := some { keyId := 1 },
          genServerKey := some { keyId := 2 }, saveCAOk := true, saveAPIOk := true } =
        Except.ok alt ∧
      ["example.com"].length + 4 ≤ alt.DNSNames.length ∧
      alt.DNSNames.length = ["example.com"].length + 5 ∧
      alt.IPs.length = ["10.0.0.5"].length + 1 ∧
      alt.IPs = [[0, 0, 0, 0, 0, 0, 0, 0, 0, 0, 255, 255, 10, 0, 0, 5]] ++ [[10, 96, 0, 1]] ∧
      (∀ d ∈ ["example.com"], d ∈ alt.DNSNames) ∧
      "node1" ∈ alt.DNSNames ∧
      "kubernetes" ∈ alt.DNSNames ∧
      "kubernetes.default" ∈ alt.DNSNames ∧
      "kubernetes.default.svc" ∈ alt.DNSNames ∧
      ("kubernetes.default.svc." ++ "cluster.local") ∈ alt.DNSNames := by
  refine ⟨⟨rfl, rfl⟩, ?_⟩
  exact assembleAltNames_san_completeness _ _ "node1"
    [[0, 0, 0, 0, 0, 0, 0, 0, 0, 0, 255, 255, 10, 0, 0, 5]]
    { base := 174063616, maskLen := 12 } [10, 96, 0, 1] rfl rfl rfl rfl

/-- C7: SAN-assembly error taxonomy and order. A missing hostname fails the
run with the hostname error; with a hostname, the first unparsable advertised
address fails it with the bad-IP error; with all addresses parsed, an
unparsable service CIDR fails it with the CIDR error; with a parsed CIDR, an
unallocatable index-1 address fails it with the allocation error. Each
failure aborts the run before either provisioning phase: the store is
untouched, no outcome is reported, nothing is written. -/
theorem CreatePKIAssets_assembly_error_order :
    ∀ (cfg : MasterConfiguration) (env : Env) (s : PKIStore),
      (env.hostname = none →
        CreatePKIAssets cfg env s =
          { error := some CertsError.couldNotGetHostname, store := s,
            caOutcome := none, apiOutcome := none, saves := [] })
      ∧ (∀ h a, env.hostname = some h →
          parseAdvertiseAddresses cfg.API.AdvertiseAddresses = Except.error a →
          CreatePKIAssets cfg env s =
            { error := some (CertsError.couldNotParseIP a), store := s,
              caOutcome := none, apiOutcome := none, saves := [] })
      ∧ (∀ h ips, env.hostname = some h →
          parseAdvertiseAddresses cfg.API.AdvertiseAddresses = Except.ok ips →
          parseCIDR cfg.Networking.ServiceSubnet = none →
          CreatePKIAssets cfg env s =
            { error := some (CertsError.errorParsingCIDR cfg.Networking.ServiceSubnet),
              store := s, caOutcome := none, apiOutcome := none, saves := [] })
      ∧ (∀ h ips net, env.hostname = some h →
          parseAdvertiseAddresses cfg.API.AdvertiseAddresses = Except.ok ips →
          parseCIDR cfg.Networking.ServiceSubnet = some net →
          GetIndexedIP net 1 = none →
          CreatePKIAssets cfg env s =
            { error := some (CertsError.unableToAllocateIP cfg.Networking.ServiceSubnet),
              store := s, caOutcome := none, apiOutcome := none, saves := [] }) := by
  intro cfg env s
  refine ⟨?_, ?_, ?_, ?_⟩
  · intro hh
    simp [CreatePKIAssets, assembleAltNames, hh]
  · intro h a hh hadv
    simp [CreatePKIAssets, assembleAltNames, hh, hadv]
  · intro h ips hh hadv hcidr
    simp [CreatePKIAssets, assembleAltNames, hh, hadv, hcidr]
  · intro h ips net hh hadv hcidr hvip
    simp [CreatePKIAssets, assembleAltNames, hh, hadv, hcidr, hvip]

/-- Concrete exercise of C7: each of the four assembly failures at an
explicit input — no hostname; address `"nope"`; CIDR `"not-a-cidr"`; and
CIDR `"10.0.0.5/32"`, whose index-1 address falls outside the /32 block. -/
theorem CreatePKIAssets_assembly_error_order_witness :
    (CreatePKIAssets cfgOkSubnet envNoHost emptyStore).error =
        some CertsError.couldNotGetHostname
    ∧ (CreatePKIAssets cfgBadIP envHostN emptyStore).error =
        some (CertsError.couldNotParseIP "nope")
    ∧ (CreatePKIAssets cfgBadCIDR envHostN emptyStore).error =
        some (CertsError.errorParsingCIDR "not-a-cidr")
    ∧ (CreatePKIAssets cfgSlash32 envHostN emptyStore).error =
        some (CertsError.unableToAllocateIP "10.0.0.5/32") := by
  refine ⟨?_, ?_, ?_, ?_⟩
  · rw [(CreatePKIAssets_assembly_error_order cfgOkSubnet envNoHost emptyStore).1 rfl]
  · rw [(CreatePKIAssets_assembly_error_order cfgBadIP envHostN emptyStore).2.1
      "n" "nope" rfl rfl]
  · rw [(CreatePKIAssets_assembly_error_order cfgBadCIDR envHostN emptyStore).2.2.1
      "n" [] rfl rfl rfl]
    rfl
  · rw [(CreatePKIAssets_assembly_error_order cfgSlash32 envHostN emptyStore).2.2.2
      "n" [] { base := 167772165, maskLen := 32 } rfl rfl rfl rfl]
    rfl

/-- C9 is false on the code: against an empty store, a configuration whose
external DNS name is `kubernetes` yields a generated server certificate in
which `kubernetes` occurs twice — nothing collapses duplicates. -/
theorem assembleAltNames_duplicates_counterexample :
    (storedApiDNSNames (CreatePKIAssets cfgDup envDup emptyStore).store).count
      "kubernetes" = 2 := by
  decide

/-- C9 (amended): duplicates among the inputs are NOT collapsed — the
assembled SAN set is exactly the concatenation of the external names, the
hostname and the four internal aliases (and of the parsed advertised
addresses and the virtual IP), each input occurrence kept. -/
theorem assembleAltNames_duplicates_preserved :
    ∀ (cfg : MasterConfiguration) (env : Env) (h : String)
      (ips : List IP) (net : IPNet) (vip : IP),
      env.hostname = some h →
      parseAdvertiseAddresses cfg.API.AdvertiseAddresses = Except.ok ips →
      parseCIDR cfg.Networking.ServiceSubnet = some net →
      GetIndexedIP net 1 = some vip →
      assembleAltNames cfg env = Except.ok
        { DNSNames := cfg.API.ExternalDNSNames ++ [h]
            ++ internalAPIServerFQDN cfg.Networking.DNSDomain,
          IPs := ips ++ [vip] } := by
  intro cfg env h ips net vip hh hadv hcidr hvip
  exact assembleAltNames_eq cfg env h ips net vip hh hadv hcidr hvip

/-- Concrete exercise of the amended C9: at the duplicating configuration the
assembled DNS list contains `kubernetes` twice. -/
theorem assembleAltNames_duplicates_preserved_witness :
    assembleAltNames cfgDup envDup = Except.ok
      { DNSNames := ["kubernetes"] ++ ["node9"] ++ internalAPIServerFQDN "cluster.local",
        IPs := [] ++ [[10, 96, 0, 1]] } :=
  assembleAltNames_duplicates_preserved cfgDup envDup "node9" []
    { base := 174063616, maskLen := 12 } [10, 96, 0, 1] rfl rfl rfl rfl

theorem tryLoadCertAndKey_none_right (cf : Option CertFile) :
    tryLoadCertAndKey cf none = none := by
  cases cf with
  | none => rfl
  | some f => cases f <;> rfl

theorem tryLoadCertAndKey_none_left (kf : Option KeyFile) :
    tryLoadCertAndKey none kf = none := by
  cases kf with
  | none => rfl
  | some f => cases f <;> rfl

/-- C1: idempotence of provisioning. A store holding a loadable CA pair with
the CA bit set and a loadable server pair makes the run succeed with no
write, both phases reported `Reused` and the store unchanged; equivalently,
immediately re-running after any successful run changes no file, writes
nothing, and reports both phases `Reused`. -/
theorem CreatePKIAssets_idempotent :
    (∀ (cfg : MasterConfiguration) (env : Env) (s : PKIStore) (alt : AltNames)
        (c c2 : Cert) (k k2 : Key),
        assembleAltNames cfg env = Except.ok alt →
        s.caCert = some (CertFile.valid c) → s.caKey = some (KeyFile.valid k) →
        c.IsCA = true →
        s.apiCert = some (CertFile.valid c2) → s.apiKey = some (KeyFile.valid k2) →
        CreatePKIAssets cfg env s =
          { error := none, store := s, caOutcome := some Outcome.Reused,
            apiOutcome := some Outcome.Reused, saves := [] })
    ∧ (∀ (cfg : MasterConfiguration) (env : Env) (s : PKIStore),
        (CreatePKIAssets cfg env s).error = none →
        CreatePKIAssets cfg env (CreatePKIAssets cfg env s).store =
          { error := none, store := (CreatePKIAssets cfg env s).store,
            caOutcome := some Outcome.Reused, apiOutcome := some Outcome.Reused,
            saves := [] }) := by
  constructor
  · intro cfg env s alt c c2 k k2 hA hc hk hca h2c h2k
    exact CreatePKIAssets_reuse cfg env s alt c c2 k k2 hA hc hk hca h2c h2k
  · intro cfg env s h
    obtain ⟨alt, c, k, s1, o, sv, s2, o2, sv2, hA, hCA, hAPI, hstore⟩ :=
      CreatePKIAssets_ok h
    obtain ⟨hc1, hk1, hca1, _, _, _, _⟩ := provisionCA_ok hCA
    obtain ⟨⟨c2, k2, h2c, h2k⟩, hcac, hcak, _, _⟩ := provisionAPI_ok hAPI
    rw [hstore]
    exact CreatePKIAssets_reuse cfg env s2 alt c c2 k k2 hA
      (hcac.trans hc1) (hcak.trans hk1) hca1 h2c h2k

/-- Concrete exercise of C1: a fully valid store is reused unchanged, and the
store a successful generating run leaves behind is reused unchanged by the
next run. -/
theorem CreatePKIAssets_idempotent_witness :
    CreatePKIAssets cfgOkSubnet envDup storeValid =
      { error := none, store := storeValid, caOutcome := some Outcome.Reused,
        apiOutcome := some Outcome.Reused, saves := [] }
    ∧ CreatePKIAssets cfgOkSubnet envDup (CreatePKIAssets cfgOkSubnet envDup emptyStore).store =
      { error := none, store := (CreatePKIAssets cfgOkSubnet envDup emptyStore).store,
        caOutcome := some Outcome.Reused, apiOutcome := some Outcome.Reused,
        saves := [] } := by
  constructor
  · exact CreatePKIAssets_idempotent.1 cfgOkSubnet envDup storeValid altW9
      newCACert apiCW { keyId := 1 } { keyId := 2 } rfl rfl rfl rfl rfl rfl
  · exact CreatePKIAssets_idempotent.2 cfgOkSubnet envDup emptyStore rfl

/-- C2: non-validating reuse of the server credential. Whenever both server
files load (under a resolvable CA and successful SAN assembly), the run
reuses the stored pair as-is — the statement imposes no condition whatsoever
on the stored certificate's SAN set, so reuse succeeds even when
`checkAltNamesExist` would reject it against the freshly assembled set. -/
theorem CreatePKIAssets_server_reuse_unconditional :
    ∀ (cfg : MasterConfiguration) (env : Env) (s : PKIStore) (alt : AltNames)
      (c c2 : Cert) (k k2 : Key),
      assembleAltNames cfg env = Except.ok alt →
      s.caCert = some (CertFile.valid c) → s.caKey = some (KeyFile.valid k) →
      c.IsCA = true →
      s.apiCert = some (CertFile.valid c2) → s.apiKey = some (KeyFile.valid k2) →
      (CreatePKIAssets cfg env s).error = none ∧
      (CreatePKIAssets cfg env s).apiOutcome = some Outcome.Reused ∧
      (CreatePKIAssets cfg env s).store = s ∧
      (CreatePKIAssets cfg env s).saves = [] := by
  intro cfg env s alt c c2 k k2 hA hc hk hca h2c h2k
  rw [CreatePKIAssets_reuse cfg env s alt c c2 k k2 hA hc hk hca h2c h2k]
  exact ⟨rfl, rfl, rfl, rfl⟩

/-- Concrete exercise of C2: the stored server certificate's SAN set (empty)
does not cover the freshly assembled one, yet the run reuses it and
succeeds. -/
theorem CreatePKIAssets_server_reuse_unconditional_witness :
    checkAltNamesExist apiCW.AltNames.IPs apiCW.AltNames.DNSNames altW9 = false
    ∧ (CreatePKIAssets cfgOkSubnet envDup storeValid).error = none
    ∧ (CreatePKIAssets cfgOkSubnet envDup storeValid).apiOutcome = some Outcome.Reused
    ∧ (CreatePKIAssets cfgOkSubnet envDup storeValid).store = storeValid := by
  have h := CreatePKIAssets_server_reuse_unconditional cfgOkSubnet envDup storeValid altW9
    newCACert apiCW { keyId := 1 } { keyId := 2 } rfl rfl rfl rfl rfl rfl
  exact ⟨by decide, h.1, h.2.1, h.2.2.1⟩

/-- C3: CA validity gate. A loadable CA pair whose certificate lacks the CA
bit fails the run with the not-a-CA error before anything is generated: the
store is unchanged, nothing is written, no outcome is reported. -/
theorem CreatePKIAssets_not_a_ca_gate :
    ∀ (cfg : MasterConfiguration) (env : Env) (s : PKIStore) (alt : AltNames)
      (c : Cert) (k : Key),
      assembleAltNames cfg env = Except.ok alt →
      s.caCert = some (CertFile.valid c) → s.caKey = some (KeyFile.valid k) →
      c.IsCA = false →
      CreatePKIAssets cfg env s =
        { error := some CertsError.notACertificateAuthority, store := s,
          caOutcome := none, apiOutcome := none, saves := [] } := by
  intro cfg env s alt c k hA hc hk hca
  have hCA : provisionCA env s = Except.error CertsError.notACertificateAuthority := by
    simp [provisionCA, certOrKeyExist, tryLoadCertAndKey, hc, hk, hca]
  simp [CreatePKIAssets, hA, hCA]

/-- Concrete exercise of C3. -/
theorem CreatePKIAssets_not_a_ca_gate_witness :
    CreatePKIAssets cfgOkSubnet envDup storeBadCA =
      { error := some CertsError.notACertificateAuthority, store := storeBadCA,
        caOutcome := none, apiOutcome := none, saves := [] } :=
  CreatePKIAssets_not_a_ca_gate cfgOkSubnet envDup storeBadCA altW9
    { CommonName := "x", IsCA := false, AltNames := { DNSNames := [], IPs := [] } }
    { keyId := 3 } rfl rfl rfl rfl

/-- C4 is false on the code: the one-file-missing case and the
present-but-unparsable case fail through the same load branch with the same
error — there is no distinct incomplete-credential error. -/
theorem CreatePKIAssets_incomplete_error_counterexample :
    (CreatePKIAssets cfgOkSubnet envHostN store4KeyOnly).error =
      some CertsError.caLoadFailed
    ∧ (CreatePKIAssets cfgOkSubnet envHostN store4Corrupt).error =
      some CertsError.caLoadFailed
    ∧ (CreatePKIAssets cfgOkSubnet envHostN store4KeyOnly).error =
      (CreatePKIAssets cfgOkSubnet envHostN store4Corrupt).error
    ∧ errMessage CertsError.caLoadFailed =
      "certificate and/or key existed but they could not be loaded properly" := by
  decide

/-- C4 (amended): when exactly one of a role's two files exists the run fails
and no stored file is modified or deleted, but the error is the same
could-not-be-loaded error used for present-but-unparsable pairs, not a
distinct incomplete-credential error. -/
theorem CreatePKIAssets_incomplete_same_error :
    ∀ (cfg : MasterConfiguration) (env : Env) (s : PKIStore) (alt : AltNames),
      assembleAltNames cfg env = Except.ok alt →
      (exactlyOneCAFile s →
        CreatePKIAssets cfg env s =
          { error := some CertsError.caLoadFailed, store := s, caOutcome := none,
            apiOutcome := none, saves := [] })
      ∧ (∀ (c : Cert) (k : Key),
          s.caCert = some (CertFile.valid c) → s.caKey = some (KeyFile.valid k) →
          c.IsCA = true → exactlyOneAPIFile s →
          CreatePKIAssets cfg env s =
            { error := some CertsError.apiLoadFailed, store := s,
              caOutcome := some Outcome.Reused, apiOutcome := none, saves := [] })
      ∧ errMessage CertsError.caLoadFailed = errMessage CertsError.apiLoadFailed
      ∧ errMessage CertsError.caLoadFailed =
          "certificate and/or key existed but they could not be loaded properly" := by
  intro cfg env s alt hA
  refine ⟨?_, ?_, rfl, rfl⟩
  · intro hone
    have hCA : provisionCA env s = Except.error CertsError.caLoadFailed := by
      rcases hone with ⟨hs, hn⟩ | ⟨hn, hs⟩
      · obtain ⟨f, hf⟩ := Option.isSome_iff_exists.mp hs
        simp [provisionCA, certOrKeyExist, hf, hn, tryLoadCertAndKey_none_right]
      · obtain ⟨f, hf⟩ := Option.isSome_iff_exists.mp hs
        simp [provisionCA, certOrKeyExist, hf, hn, tryLoadCertAndKey_none_left]
    simp [CreatePKIAssets, hA, hCA]
  · intro c k hc hk hca hone
    have hAPI : provisionAPI env alt c k s = Except.error CertsError.apiLoadFailed := by
      rcases hone with ⟨hs, hn⟩ | ⟨hn, hs⟩
      · obtain ⟨f, hf⟩ := Option.isSome_iff_exists.mp hs
        simp [provisionAPI, certOrKeyExist, hf, hn, tryLoadCertAndKey_none_right]
      · obtain ⟨f, hf⟩ := Option.isSome_iff_exists.mp hs
        simp [provisionAPI, certOrKeyExist, hf, hn, tryLoadCertAndKey_none_left]
    simp [CreatePKIAssets, hA, provisionCA_reuse env s c k hc hk hca, hAPI]

/-- Concrete exercise of the amended C4, for both roles. -/
theorem CreatePKIAssets_incomplete_same_error_witness :
    CreatePKIAssets cfgOkSubnet envHostN store4KeyOnly =
      { error := some CertsError.caLoadFailed, store := store4KeyOnly,
        caOutcome := none, apiOutcome := none, saves := [] }
    ∧ CreatePKIAssets cfgOkSubnet envHostN storeApiKeyOnly =
      { error := some CertsError.apiLoadFailed, store := storeApiKeyOnly,
        caOutcome := some Outcome.Reused, apiOutcome := none, saves := [] } := by
  constructor
  · exact (CreatePKIAssets_incomplete_same_error cfgOkSubnet envHostN store4KeyOnly
      altWn rfl).1 (Or.inr ⟨rfl, rfl⟩)
  · exact (CreatePKIAssets_incomplete_same_error cfgOkSubnet envHostN storeApiKeyOnly
      altWn rfl).2.1 newCACert { keyId := 1 } rfl rfl rfl (Or.inr ⟨rfl, rfl⟩)

/-- C8: no destructive action on any failure path — whenever the run returns
an error, every file present in the store at the start is still present with
the same content. -/
theorem CreatePKIAssets_no_destruction :
    ∀ (cfg : MasterConfiguration) (env : Env) (s : PKIStore) (e : CertsError),
      (CreatePKIAssets cfg env s).error = some e →
      storeKeeps s (CreatePKIAssets cfg env s).store := by
  intro cfg env s e _
  exact CreatePKIAssets_keeps cfg env s

/-- Concrete exercise of C8: a failing run (missing hostname) over a store
holding one file keeps that file. -/
theorem CreatePKIAssets_no_destruction_witness :
    storeKeeps store4KeyOnly
      (CreatePKIAssets cfgOkSubnet envNoHost store4KeyOnly).store :=
  CreatePKIAssets_no_destruction cfgOkSubnet envNoHost store4KeyOnly
    CertsError.couldNotGetHostname rfl
